import Mathlib

/-!
Shallow embedding of the API-gateway component of the student-management
repository (package `gateway`): the load balancer (`load_balancer.go`),
the proxying and management handlers (`gateway.go`), the file-based service
registry (`service_registry`, shipped as an unnamed source part), the
configuration manager and the middleware chain.

Go machine integers (`int`) are modelled as `Int`; `time.Time` /
`time.Duration` values are modelled as abstract `Nat` / `Int` ticks.
Go maps are modelled as functions (`String → Option _` when the code
distinguishes key presence, `String → Int` when a missing key reads as the
zero value, exactly as Go map reads do).  Pointer mutation of a
`*ServiceInstance` stored in a bucket is modelled by updating the bucket
list at the instance's position; a selection therefore returns the selected
bucket index alongside the instance value.  A Go runtime panic (negative
slice index, `rand.Intn` with a non-positive argument) is modelled as
`Option.none`.  Environment effects (the PRNG draw, HTTP transport
outcomes, URL-parse success, clock reads) are passed as explicit
parameters.
-/

namespace Gateway

/-- The `ServiceInstance` (load_balancer.go lines 21-33). -/
structure ServiceInstance where
  id : String
  serviceName : String
  url : String
  weight : Int
  healthy : Bool
  connections : Int
  lastCheck : Nat
  responseTime : Int
  registerTime : Nat
  failureCount : Int
  healthCheckPath : String
deriving Repr, DecidableEq, Inhabited

/-- The `LoadBalancer` (load_balancer.go lines 36-42).  `strategy` is a string
type in the source (`LoadBalancerStrategy`); `services` is a Go map where
key presence matters (a key is never deleted but may hold an empty
slice); a missing `counters` key reads as `0`, so counters are a total
function. -/
structure LoadBalancer where
  strategy : String
  services : String → Option (List ServiceInstance)
  counters : String → Int

/-- Go slice indexing `l[i]` with an `int` index: panics (`none`) when the
index is negative or out of range. -/
def goIndex {α : Type} (l : List α) (i : Int) : Option α :=
  if 0 ≤ i then l.get? i.toNat else none

/-- Go's `%` on `int` (truncated remainder, sign of the dividend). -/
def goMod (a b : Int) : Int := Int.tmod a b

/-- The `rand.Intn(n)` for an `int` bound: panics (`none`) when `n <= 0`,
otherwise the draw `r` reduced into `[0, n)`. -/
def goIntn (n : Int) (r : Nat) : Option Int :=
  if n ≤ 0 then none else some ((r : Int) % n)

/-- The healthy-instance filter of `GetInstance` (load_balancer.go lines
96-101).  The Go loop collects pointers into the bucket; the embedding
pairs each collected instance with its bucket index so that later pointer
writes can be replayed against the bucket. -/
def healthyEnumFrom : Nat → List ServiceInstance → List (Nat × ServiceInstance)
  | _, [] => []
  | i, x :: xs =>
    if x.healthy then (i, x) :: healthyEnumFrom (i + 1) xs
    else healthyEnumFrom (i + 1) xs

/-- Healthy instances of a bucket, paired with their bucket indices. -/
def healthyEnum (l : List ServiceInstance) : List (Nat × ServiceInstance) :=
  healthyEnumFrom 0 l

/-- The `weighted`'s scan (load_balancer.go lines 184-191): first instance
whose cumulative weight exceeds the draw, else the last instance. -/
def weightedPick (rw : Int) (cur : Int) :
    List (Nat × ServiceInstance) → Option (Nat × ServiceInstance)
  | [] => none
  | x :: xs =>
    if rw < cur + x.2.weight then some x
    else
      match weightedPick rw (cur + x.2.weight) xs with
      | some y => some y
      | none => some x

/-- The total-weight accumulation loop of `weighted` (load_balancer.go
lines 172-175). -/
def sumWeights (hl : List (Nat × ServiceInstance)) : Int :=
  hl.foldl (fun acc p => acc + p.2.weight) 0

/-- The `weighted` (load_balancer.go lines 171-192). -/
def weightedSelect (hl : List (Nat × ServiceInstance)) (r : Nat) :
    Option (Nat × ServiceInstance) :=
  if sumWeights hl = 0 then
    (goIntn (hl.length : Int) r).bind (goIndex hl)
  else
    (goIntn (sumWeights hl) r).bind (fun rw => weightedPick rw 0 hl)

/-- The `leastConnections` (load_balancer.go lines 195-211): first instance
with the strictly smallest connection count. -/
def leastConnSelect : List (Nat × ServiceInstance) → Option (Nat × ServiceInstance)
  | [] => none
  | x :: xs =>
    some (xs.foldl (fun sel p => if p.2.connections < sel.2.connections then p else sel) x)

/-- The strategy switch of `GetInstance` (load_balancer.go lines 107-119)
over the healthy list, together with the round-robin counter write
(load_balancer.go line 161, the only strategy that writes `counters`).
The result also carries the updated counter map. -/
def selectInstance (strategy : String) (counters : String → Int) (name : String)
    (hl : List (Nat × ServiceInstance)) (r : Nat) :
    Option ((Nat × ServiceInstance) × (String → Int)) :=
  if strategy = "round_robin" then
    let count := counters name
    (goIndex hl (goMod count (hl.length : Int))).map
      (fun p =>
        (p, fun s =>
          if s = name then goMod (count + 1) (hl.length : Int)
          else counters s))
  else if strategy = "random" then
    ((goIntn (hl.length : Int) r).bind (goIndex hl)).map (fun p => (p, counters))
  else if strategy = "weighted" then
    (weightedSelect hl r).map (fun p => (p, counters))
  else if strategy = "least_conn" then
    (leastConnSelect hl).map (fun p => (p, counters))
  else
    (hl.head?).map (fun p => (p, counters))

/-- The `GetInstance` (load_balancer.go lines 86-127).  `r` is the PRNG draw
consumed by the `random`/`weighted` strategies.  The result is `none` on a
Go panic, `some (.error msg)` on the two error returns, and
`some (.ok (lb', i, inst'))` on success, where `i` is the selected bucket
index and `inst'` the returned instance (connection count already
incremented, as in the source). -/
def getInstance (lb : LoadBalancer) (name : String) (r : Nat) :
    Option (Except String (LoadBalancer × Nat × ServiceInstance)) :=
  match lb.services name with
  | none => some (.error "no available instances")
  | some instances =>
    if instances.length = 0 then some (.error "no available instances")
    else
      let hl := healthyEnum instances
      if hl.length = 0 then some (.error "no healthy instances")
      else
        match selectInstance lb.strategy lb.counters name hl r with
        | none => none
        | some ((i, inst), counters') =>
          let inst' := { inst with connections := inst.connections + 1 }
          some (.ok
            (⟨lb.strategy,
              fun s => if s = name then some (instances.set i inst') else lb.services s,
              counters'⟩, i, inst'))

/-- The `RegisterService` (load_balancer.go lines 55-65): a fresh service name
gets an empty bucket and a zero counter before the append. -/
def lbRegisterService (lb : LoadBalancer) (name : String) (inst : ServiceInstance) :
    LoadBalancer :=
  match lb.services name with
  | none =>
    ⟨lb.strategy,
      fun s => if s = name then some [inst] else lb.services s,
      fun s => if s = name then 0 else lb.counters s⟩
  | some l =>
    ⟨lb.strategy,
      fun s => if s = name then some (l ++ [inst]) else lb.services s,
      lb.counters⟩

/-- The removal loop of `UnregisterService` (load_balancer.go lines
77-82): drop the first instance whose id matches. -/
def removeFirstById (instanceID : String) : List ServiceInstance → List ServiceInstance
  | [] => []
  | x :: xs => if x.id = instanceID then xs else x :: removeFirstById instanceID xs

/-- The `UnregisterService` (load_balancer.go lines 68-83). -/
def lbUnregisterService (lb : LoadBalancer) (name instanceID : String) : LoadBalancer :=
  match lb.services name with
  | none => lb
  | some l =>
    ⟨lb.strategy,
      fun s => if s = name then some (removeFirstById instanceID l) else lb.services s,
      lb.counters⟩

/-- The `ReleaseConnection`'s effect on the pointed-to instance
(load_balancer.go lines 214-221): decrement only when positive. -/
def releaseConnection (inst : ServiceInstance) : ServiceInstance :=
  if 0 < inst.connections then { inst with connections := inst.connections - 1 }
  else inst

/-- Replaying `ReleaseConnection` against the bucket holding the pointed-to
instance: the pointer is addressed as (service name, bucket index). -/
def releaseConnAt (lb : LoadBalancer) (name : String) (i : Nat) : LoadBalancer :=
  match lb.services name with
  | none => lb
  | some l =>
    match l.get? i with
    | none => lb
    | some inst =>
      ⟨lb.strategy,
        fun s => if s = name then some (l.set i (releaseConnection inst)) else lb.services s,
        lb.counters⟩

/-- The `Gateway`'s state relevant to proxying and the management handlers
(gateway.go lines 42-52): the load balancer plus the `services` sync.Map
(one instance per service name). -/
structure GatewayState where
  lb : LoadBalancer
  services : String → Option ServiceInstance

/-- The `proxyRequest` (gateway.go lines 214-251).  Environment inputs:
`r` the PRNG draw, `parseOk` whether `url.Parse` succeeds on a given URL
string, `transportOk` whether the reverse proxy reaches the backend
(`false` routes through `proxyErrorHandler`, gateway.go lines 283-287,
which writes status 502), `backendStatus` the status a reachable backend
answers with.  The result is the written HTTP status plus the final
load-balancer state; `none` models a panic inside `GetInstance`.

Faithful to the source, the `defer g.loadBalancer.ReleaseConnection(...)`
statement sits on the last line of the function, *after* both the
`url.Parse` failure early return and `proxy.ServeHTTP`; a `defer` only
registers when its statement executes, so the early return at line 232
exits without ever releasing the connection. -/
def proxyRequest (g : GatewayState) (serviceName : String) (r : Nat)
    (parseOk : String → Bool) (transportOk : Bool) (backendStatus : Nat) :
    Option (Nat × GatewayState) :=
  match getInstance g.lb serviceName r with
  | none => none
  | some (.error _) => some (503, g)
  | some (.ok (lb1, i, inst)) =>
    if parseOk inst.url = false then
      some (500, { g with lb := lb1 })
    else
      let status := if transportOk then backendStatus else 502
      some (status, { g with lb := releaseConnAt lb1 serviceName i })

/-- The instance built by the `registerService` management handler
(gateway.go lines 479-491); `now` abstracts `time.Now()`. -/
def handlerInstance (serviceName url : String) (weight : Int) (now : Nat) :
    ServiceInstance :=
  { id := serviceName ++ "-" ++ toString now
    serviceName := serviceName
    url := url
    weight := weight
    healthy := true
    connections := 0
    lastCheck := now
    responseTime := 0
    registerTime := now
    failureCount := 0
    healthCheckPath := "/health" }

/-- The state effect of the `registerService` handler on a well-formed
request (gateway.go lines 493-504): register with the load balancer and
store in the `services` sync.Map. -/
def registerServiceHandler (g : GatewayState) (serviceName url : String)
    (weight : Int) (now : Nat) : Nat × GatewayState :=
  let inst := handlerInstance serviceName url weight now
  (200,
    { lb := lbRegisterService g.lb serviceName inst
      services := fun s => if s = serviceName then some inst else g.services s })

/-- The `unregisterService` handler (gateway.go lines 549-561): it deletes
the service name from the `services` sync.Map and answers 200.  It is a
faithful transcription: the handler never touches the load balancer. -/
def unregisterServiceHandler (g : GatewayState) (serviceName : String) :
    Nat × GatewayState :=
  (200,
    { g with services := fun s => if s = serviceName then none else g.services s })

/-! ### Health probes

Two distinct probe paths exist in the source: the file registry's
`performHealthChecks` goroutine body (service_registry part, lines
268-307, calling `HealthCheck`, lines 162-197) and the `Gateway`'s own
`checkServiceHealth` (gateway.go lines 598-623).  A probe's transport
outcome is an environment input: `none` models a transport-level error,
`some code` a response with that status code. -/

/-- The URL the registry probe GETs (service_registry part, lines
172-178): `url + healthCheckPath`, falling back to `"/health"` when the
path is empty. -/
def registryProbeURL (inst : ServiceInstance) : String :=
  inst.url ++ (if inst.healthCheckPath = "" then "/health" else inst.healthCheckPath)

/-- Whether the registry's `HealthCheck` returns nil (service_registry
part, lines 162-197): the URL must be non-empty, the transport must
deliver a response, and the status must be exactly 200. -/
def registryProbeOk (inst : ServiceInstance) (resp : Option Int) : Bool :=
  decide (inst.url ≠ "") && decide (resp = some 200)

/-- The per-instance fold of the registry probe result (service_registry
part, lines 283-298): `lastCheck` is stamped, failure sets
`healthy = false` and increments `failureCount`, success sets
`healthy = true` and clears `failureCount`. -/
def applyRegistryProbe (inst : ServiceInstance) (ok : Bool) (now : Nat) :
    ServiceInstance :=
  if ok then { inst with lastCheck := now, healthy := true, failureCount := 0 }
  else { inst with lastCheck := now, healthy := false,
                   failureCount := inst.failureCount + 1 }

/-- The URL the Gateway's own loop GETs (gateway.go line 605): always
`url + "/health"`, ignoring the instance's `healthCheckPath`. -/
def gatewayProbeURL (inst : ServiceInstance) : String :=
  inst.url ++ "/health"

/-- The `checkServiceHealth`'s fold of the probe outcome (gateway.go lines
607-620): a transport error only clears `healthy` (no `failureCount`, no
`lastCheck` update); a response sets `healthy` iff the status is 200 and
stamps `lastCheck`/`responseTime`.  `failureCount` is never touched on
this path. -/
def applyGatewayProbe (inst : ServiceInstance) (resp : Option Int)
    (now : Nat) (rt : Int) : ServiceInstance :=
  match resp with
  | none => { inst with healthy := false }
  | some code =>
    { inst with healthy := decide (code = 200), lastCheck := now, responseTime := rt }

/-! ### File service registry -/

/-- The `FileServiceRegistry`'s instance map (service_registry part, lines
24-31).  Watcher channels and the backing file are environment effects;
the embedding records, for each operation, whether `notifyWatchers` was
invoked for the touched service — the registry-side event every watcher
snapshot delivery originates from. -/
structure Registry where
  services : String → Option (List ServiceInstance)

/-- The in-place update loop of `Register` (service_registry part, lines
62-70): replace the instance whose id matches, wholesale. -/
def replaceById (inst : ServiceInstance) : List ServiceInstance → List ServiceInstance
  | [] => []
  | x :: xs => if x.id = inst.id then inst :: xs else x :: replaceById inst xs

/-- Whether a bucket already holds the id (drives `Register`'s branch). -/
def containsId (instanceID : String) (l : List ServiceInstance) : Bool :=
  l.any (fun x => x.id = instanceID)

/-- The `Register` (service_registry part, lines 51-82).  The `Bool` in the
result records whether `notifyWatchers` ran for the service.  An existing
id is updated in place (no stamping); a fresh id is appended with
`registerTime`/`lastCheck` stamped and `healthy = true`.  Both branches
notify. -/
def registryRegister (reg : Registry) (service : ServiceInstance) (now : Nat) :
    Except String (Registry × Bool) :=
  if service.serviceName = "" then .error "service name cannot be empty"
  else
    let name := service.serviceName
    let l := (reg.services name).getD []
    if containsId service.id l then
      .ok (⟨fun s => if s = name then some (replaceById service l) else reg.services s⟩, true)
    else
      let stamped := { service with registerTime := now, lastCheck := now, healthy := true }
      .ok (⟨fun s => if s = name then some (l ++ [stamped]) else reg.services s⟩, true)

/-- The `Unregister` restricted to one service bucket (service_registry part,
lines 85-108): remove the first id match, delete the key when the bucket
empties, notify; unmatched ids leave the registry untouched and error. -/
def registryUnregister (reg : Registry) (name instanceID : String) :
    Except String (Registry × Bool) :=
  match reg.services name with
  | none => .error ("service not found: " ++ instanceID)
  | some l =>
    if containsId instanceID l then
      let l' := removeFirstById instanceID l
      .ok (⟨fun s => if s = name then (if l'.length = 0 then none else some l') else reg.services s⟩,
        true)
    else .error ("service not found: " ++ instanceID)

/-- The shared-state fold of one registry probe goroutine (service_registry
part, lines 280-303), addressed at bucket position `i` of service `name`:
apply the probe result and notify watchers iff the health flag transitioned. -/
def registryProbeStep (reg : Registry) (name : String) (i : Nat) (ok : Bool)
    (now : Nat) : Registry × Bool :=
  match reg.services name with
  | none => (reg, false)
  | some l =>
    match l.get? i with
    | none => (reg, false)
    | some inst =>
      let inst' := applyRegistryProbe inst ok now
      (⟨fun s => if s = name then some (l.set i inst') else reg.services s⟩,
        inst.healthy != inst'.healthy)

/-! ### Configuration manager (config_manager part) -/

/-- The `ServiceInfo` (gateway.go lines 27-31). -/
structure ServiceInfo where
  url : String
  pathPrefix : String
  weight : Int
deriving Repr, DecidableEq

/-- The `LoadBalancerConfig` (gateway.go lines 34-39); durations in ticks. -/
structure LoadBalancerConfig where
  strategy : String
  healthCheck : Bool
  checkInterval : Int
  checkTimeout : Int
deriving Repr, DecidableEq

/-- The `GatewayConfig` (gateway.go lines 18-24); the `services` map is kept
as an association list (iteration order fixes which validation error is
reported first, nothing else). -/
structure GatewayConfig where
  port : Int
  timeout : Int
  rateLimit : Int
  services : List (String × ServiceInfo)
  loadBalancer : LoadBalancerConfig
deriving Repr, DecidableEq

/-- The service loop of `validateConfig` (config_manager part, lines
198-205). -/
def validateServices : List (String × ServiceInfo) → Except String Unit
  | [] => .ok ()
  | (name, service) :: rest =>
    if service.url = "" then .error ("service " ++ name ++ ": URL cannot be empty")
    else if service.weight < 0 then
      .error ("service " ++ name ++ ": weight cannot be negative")
    else validateServices rest

/-- The `validateConfig` (config_manager part, lines 184-208). -/
def validateConfig (config : GatewayConfig) : Except String Unit :=
  if config.port ≤ 0 ∨ 65535 < config.port then
    .error ("invalid port: " ++ toString config.port)
  else if config.timeout ≤ 0 then .error "timeout must be positive"
  else if config.rateLimit < 0 then .error "rate limit cannot be negative"
  else validateServices config.services

/-- The `setDefaults` (config_manager part, lines 211-243). -/
def setDefaults (config : GatewayConfig) : GatewayConfig :=
  let config := if config.port = 0 then { config with port := 8080 } else config
  let config :=
    if config.timeout = 0 then { config with timeout := 30000000000 } else config
  let config := if config.rateLimit = 0 then { config with rateLimit := 1000 } else config
  let config :=
    if config.loadBalancer.strategy = "" then
      { config with loadBalancer := { config.loadBalancer with strategy := "round_robin" } }
    else config
  let config :=
    if config.loadBalancer.checkInterval = 0 then
      { config with loadBalancer := { config.loadBalancer with checkInterval := 30000000000 } }
    else config
  let config :=
    if config.loadBalancer.checkTimeout = 0 then
      { config with loadBalancer := { config.loadBalancer with checkTimeout := 5000000000 } }
    else config
  { config with
    services := config.services.map (fun p =>
      if p.2.weight = 0 then (p.1, { p.2 with weight := 1 }) else p) }

/-- The post-parse pipeline of `LoadConfig` (config_manager part, lines
161-167): validate first, then fill defaults.  File existence,
modification-time short-circuiting and YAML/JSON decoding are environment
effects in front of this pipeline; `config` is the decoded value (unset
fields zero-valued, exactly as Go decoding leaves them). -/
def loadConfigPipeline (config : GatewayConfig) : Except String GatewayConfig :=
  match validateConfig config with
  | .error e => .error ("config validation failed: " ++ e)
  | .ok () => .ok (setDefaults config)

/-! ### Middleware chain (middleware part) -/

/-- The outcome of one middleware on one request: abort with a status, or
fall through to the next handler. -/
inductive MWResult where
  | abort (status : Nat) : MWResult
  | next : MWResult
deriving Repr, DecidableEq

/-- The `isRateLimited` (middleware part, lines 168-172): a stub that returns
`false` for every client. -/
def isRateLimited (_clientIP : String) : Bool := false

/-- The `RateLimitMiddleware` (middleware part, lines 93-111). -/
def rateLimitMiddleware (clientIP : String) : MWResult :=
  if isRateLimited clientIP then .abort 429 else .next

/-- The `validateToken` (middleware part, lines 174-186).  Go `len` on a
string counts bytes; `String.utf8ByteSize` is its Lean counterpart. -/
def validateToken (token : String) : Bool :=
  if token = "invalid" ∨ token = "expired" then false
  else decide (10 < token.utf8ByteSize)

/-- The fixed record `extractUserFromToken` builds (middleware part, lines
189-198); the token is ignored entirely. -/
structure UserInfo where
  userId : String
  username : String
  role : String
  exp : Nat
deriving Repr, DecidableEq

/-- The `extractUserFromToken` (middleware part, lines 189-198). -/
def extractUserFromToken (_token : String) (now : Nat) : UserInfo :=
  { userId := "12345", username := "test_user", role := "user", exp := now + 3600 }

/-- The outcome of `AuthMiddleware` (middleware part, lines 114-165):
either a 401 abort or fall-through with the user info stored in the
request context. -/
inductive AuthResult where
  | abort (status : Nat) : AuthResult
  | next (user : UserInfo) : AuthResult
deriving Repr, DecidableEq

/-- The `AuthMiddleware` (middleware part, lines 114-165); `authHeader` is the
`Authorization` header (`none` when absent, and Gin returns `""` for an
absent header, so the empty string takes the same branch).  Go's
`strings.HasPrefix(h, "Bearer ")` compares the first 7 bytes and
`strings.TrimPrefix` then drops them; since `"Bearer "` is ASCII and UTF-8
is prefix-synchronized, this is exactly a 7-character comparison/drop on
the character list. -/
def authMiddleware (authHeader : Option String) (now : Nat) : AuthResult :=
  let header := authHeader.getD ""
  if header = "" then .abort 401
  else if ¬ (List.isPrefixOf "Bearer ".data header.data) then .abort 401
  else
    let token := String.mk (header.data.drop 7)
    if token = "" then .abort 401
    else if ¬ validateToken token then .abort 401
    else .next (extractUserFromToken token now)

/-! ### Derived notions used by the statements -/

/-- The `N` consecutive `GetInstance` calls for one service, collecting the
selected bucket indices; the iteration stops early if a call does not
return an instance.  The PRNG draw is irrelevant under round-robin and
fixed to `0`. -/
def getInstanceIter (name : String) : Nat → LoadBalancer → List Nat × LoadBalancer
  | 0, lb => ([], lb)
  | n + 1, lb =>
    match getInstance lb name 0 with
    | some (.ok (lb', i, _)) =>
      let t := getInstanceIter name n lb'
      (i :: t.1, t.2)
    | _ => ([], lb)

/-- The bucket index of the `p`-th healthy instance of a bucket. -/
def nthHealthyIdx (l : List ServiceInstance) (p : Nat) : Nat :=
  (((healthyEnum l).get? p).map Prod.fst).getD 0

/-- The operations the connection-count invariant ranges over: a
`GetInstance` call (with its PRNG draw) and a `ReleaseConnection` against
the instance at a bucket position. -/
inductive LBOp where
  | get (name : String) (r : Nat) : LBOp
  | release (name : String) (i : Nat) : LBOp

/-- The load-balancer state after one operation; a failed or panicking
`GetInstance` leaves the state unchanged. -/
def applyOp (lb : LoadBalancer) : LBOp → LoadBalancer
  | .get name r =>
    match getInstance lb name r with
    | some (.ok (lb', _, _)) => lb'
    | _ => lb
  | .release name i => releaseConnAt lb name i

/-- The load-balancer state after a sequence of operations. -/
def applyOps (lb : LoadBalancer) (ops : List LBOp) : LoadBalancer :=
  ops.foldl applyOp lb

/-- Every tracked instance has a non-negative connection count. -/
def connNonneg (lb : LoadBalancer) : Prop :=
  ∀ name l, lb.services name = some l → ∀ inst ∈ l, 0 ≤ inst.connections

/-- The connection counts of one service's bucket (observation helper). -/
def bucketConnections (lb : LoadBalancer) (name : String) : Option (List Int) :=
  (lb.services name).map (List.map ServiceInstance.connections)

/-- Observable part of a `GetInstance` result: the selected bucket index
and instance id. -/
def getInstanceView (lb : LoadBalancer) (name : String) (r : Nat) :
    Option (Except String (Nat × String)) :=
  (getInstance lb name r).map (Except.map (fun t => (t.2.1, t.2.2.id)))

/-- Instance ids and health flags of one registry bucket (the membership
and health observation the watcher claim is about). -/
def idsHealth (reg : Registry) (name : String) : Option (List (String × Bool)) :=
  (reg.services name).map (List.map (fun i => (i.id, i.healthy)))

/-! ### Concrete fixtures for counterexamples and witnesses -/

/-- A healthy instance whose URL `url.Parse` rejects (an unclosed IPv6
bracket makes `url.Parse` fail in Go). -/
def instBadURL : ServiceInstance :=
  { id := "student-api-1", serviceName := "student-api", url := "http://[::1"
    weight := 1, healthy := true, connections := 0, lastCheck := 0
    responseTime := 0, registerTime := 0, failureCount := 0
    healthCheckPath := "/health" }

/-- A plain healthy instance. -/
def instOk : ServiceInstance :=
  { id := "svc-1", serviceName := "svc", url := "http://localhost:9000"
    weight := 1, healthy := true, connections := 0, lastCheck := 0
    responseTime := 0, registerTime := 0, failureCount := 0
    healthCheckPath := "/health" }

/-- A second healthy instance of the same service. -/
def instOk2 : ServiceInstance :=
  { instOk with id := "svc-2", url := "http://localhost:9001" }

/-- Gateway state for the C1 scenario: one round-robin service whose only
instance has an unparsable URL. -/
def gC1 : GatewayState :=
  { lb :=
      ⟨"round_robin",
        fun s => if s = "student-api" then some [instBadURL] else none,
        fun _ => 0⟩
    services := fun s => if s = "student-api" then some instBadURL else none }

/-- The empty gateway the C3 scenario starts from. -/
def gEmpty : GatewayState :=
  { lb := ⟨"round_robin", fun _ => none, fun _ => 0⟩, services := fun _ => none }

/-- C3 scenario, step 1: `POST /gateway/services/svc/register`. -/
def gC3reg : GatewayState :=
  (registerServiceHandler gEmpty "svc" "http://localhost:9000" 5 100).2

/-- C3 scenario, step 2: `DELETE /gateway/services/svc/unregister`. -/
def gC3unreg : GatewayState := (unregisterServiceHandler gC3reg "svc").2

/-- An all-zero (fully unset) decoded configuration. -/
def cfgUnset : GatewayConfig :=
  { port := 0, timeout := 0, rateLimit := 0, services := []
    loadBalancer := { strategy := "", healthCheck := false, checkInterval := 0, checkTimeout := 0 } }

/-- A configuration with valid port/timeout and all defaultable fields
unset. -/
def cfgSparse : GatewayConfig :=
  { port := 9090, timeout := 5, rateLimit := 0
    services := [("student-api", { url := "http://localhost:9000", pathPrefix := "", weight := 0 })]
    loadBalancer := { strategy := "", healthCheck := true, checkInterval := 0, checkTimeout := 0 } }

/-- Registry holding one healthy instance, for the watcher scenarios. -/
def regC7 : Registry := ⟨fun s => if s = "svc" then some [instOk] else none⟩

/-- A field-level re-registration of `instOk`: same id, new URL, health
unchanged. -/
def instOkNewURL : ServiceInstance := { instOk with url := "http://localhost:9999" }

/-- Load balancer with two healthy round-robin instances (C4 witness). -/
def lbRR2 : LoadBalancer :=
  ⟨"round_robin", fun s => if s = "svc" then some [instOk, instOk2] else none, fun _ => 0⟩

/-- Load balancer with one healthy instance (C5/C8 witnesses). -/
def lbOne : LoadBalancer :=
  ⟨"round_robin", fun s => if s = "svc" then some [instOk] else none, fun _ => 0⟩

/-- Operation sequence with more releases than acquisitions (C8 witness). -/
def opsC8 : List LBOp :=
  [.release "svc" 0, .release "svc" 0, .get "svc" 0, .release "svc" 0, .release "svc" 0]

/-- Same service topology as `gC1` but with a parseable instance URL. -/
def gC1ok : GatewayState :=
  { lb :=
      ⟨"round_robin",
        fun s => if s = "student-api" then some [instOk] else none,
        fun _ => 0⟩
    services := fun s => if s = "student-api" then some instOk else none }

/-- A `url.Parse` oracle that rejects exactly the malformed URL of
`instBadURL` (Go's parser rejects the unclosed IPv6 bracket). -/
def parseOracle : String → Bool := fun u => u != "http://[::1"

/-- Error-side observation of the configuration pipeline. -/
def loadResultErr (c : GatewayConfig) : Option String :=
  match loadConfigPipeline c with
  | .error e => some e
  | .ok _ => none

instance {ε α : Type} [DecidableEq ε] [DecidableEq α] : DecidableEq (Except ε α) :=
  fun a b =>
    match a, b with
    | .ok x, .ok y => if h : x = y then .isTrue (by rw [h]) else .isFalse (by simp [h])
    | .error x, .error y => if h : x = y then .isTrue (by rw [h]) else .isFalse (by simp [h])
    | .ok _, .error _ => .isFalse (by simp)
    | .error _, .ok _ => .isFalse (by simp)

/-! ## Supporting lemmas -/

theorem validateServices_ok (l : List (String × ServiceInfo))
    (h : ∀ p ∈ l, p.2.url ≠ "" ∧ 0 ≤ p.2.weight) : validateServices l = .ok () := by
  induction l with
  | nil => rfl
  | cons p rest ih =>
    obtain ⟨name, service⟩ := p
    obtain ⟨hurl, hw⟩ := h (name, service) (List.mem_cons_self _ _)
    simp only [validateServices]
    rw [if_neg hurl, if_neg (by simp only at hw ⊢; omega)]
    exact ih (fun q hq => h q (List.mem_cons_of_mem _ hq))

theorem setDefaults_eq (c : GatewayConfig) :
    setDefaults c =
      { port := if c.port = 0 then 8080 else c.port
        timeout := if c.timeout = 0 then 30000000000 else c.timeout
        rateLimit := if c.rateLimit = 0 then 1000 else c.rateLimit
        services := c.services.map (fun p =>
          if p.2.weight = 0 then (p.1, { p.2 with weight := 1 }) else p)
        loadBalancer :=
          { strategy :=
              if c.loadBalancer.strategy = "" then "round_robin" else c.loadBalancer.strategy
            healthCheck := c.loadBalancer.healthCheck
            checkInterval :=
              if c.loadBalancer.checkInterval = 0 then 30000000000
              else c.loadBalancer.checkInterval
            checkTimeout :=
              if c.loadBalancer.checkTimeout = 0 then 5000000000
              else c.loadBalancer.checkTimeout } } := by
  obtain ⟨port, timeout, rateLimit, services, ⟨strategy, hc, ci, ct⟩⟩ := c
  simp only [setDefaults]
  by_cases h1 : port = 0 <;> by_cases h2 : timeout = 0 <;> by_cases h3 : rateLimit = 0 <;>
    by_cases h4 : strategy = "" <;> by_cases h5 : ci = 0 <;> by_cases h6 : ct = 0 <;>
      simp [h1, h2, h3, h4, h5, h6]

/-- The `applyRegistryProbe` leaves the health flag equal to the probe result. -/
theorem applyRegistryProbe_healthy (inst : ServiceInstance) (ok : Bool) (now : Nat) :
    (applyRegistryProbe inst ok now).healthy = ok := by
  cases ok <;> rfl

/-- Every pair collected by the healthy filter is a healthy bucket entry,
at the recorded bucket position (shifted by the starting index). -/
theorem healthyEnumFrom_mem {l : List ServiceInstance} :
    ∀ {j : Nat} {p : Nat × ServiceInstance}, p ∈ healthyEnumFrom j l →
      ∃ t, p.1 = j + t ∧ l.get? t = some p.2 ∧ p.2.healthy = true := by
  induction l with
  | nil => intro j p h; simp [healthyEnumFrom] at h
  | cons x xs ih =>
    intro j p h
    by_cases hx : x.healthy
    · simp only [healthyEnumFrom, if_pos hx] at h
      rcases List.mem_cons.mp h with h1 | h2
      · subst h1; exact ⟨0, by omega, rfl, hx⟩
      · obtain ⟨t, ht1, ht2, ht3⟩ := ih h2
        exact ⟨t + 1, by omega, ht2, ht3⟩
    · simp only [healthyEnumFrom, if_neg hx] at h
      obtain ⟨t, ht1, ht2, ht3⟩ := ih h
      exact ⟨t + 1, by omega, ht2, ht3⟩

/-- The healthy filter is empty exactly when no bucket entry is healthy. -/
theorem healthyEnumFrom_eq_nil {l : List ServiceInstance} :
    ∀ {j : Nat}, healthyEnumFrom j l = [] ↔ ∀ x ∈ l, x.healthy = false := by
  induction l with
  | nil => intro j; simp [healthyEnumFrom]
  | cons x xs ih =>
    intro j
    by_cases hx : x.healthy
    · simp [healthyEnumFrom, if_pos hx, hx]
    · simp [healthyEnumFrom, if_neg hx, ih, Bool.eq_false_iff.mpr hx]

theorem goIndex_mem {α : Type} {l : List α} {i : Int} {x : α}
    (h : goIndex l i = some x) : x ∈ l := by
  unfold goIndex at h
  split at h
  · exact List.get?_mem h
  · exact absurd h (by simp)

theorem goIndex_isSome {α : Type} {l : List α} {i : Int}
    (h0 : 0 ≤ i) (hlt : i < (l.length : Int)) : (goIndex l i).isSome := by
  rw [goIndex, if_pos h0, List.get?_eq_get ((Int.toNat_lt h0).mpr hlt)]
  rfl

theorem weightedPick_mem {x : Nat × ServiceInstance} :
    ∀ {l : List (Nat × ServiceInstance)} {w cur : Int},
      weightedPick w cur l = some x → x ∈ l := by
  intro l
  induction l with
  | nil => intro w cur h; simp [weightedPick] at h
  | cons y ys ih =>
    intro w cur h
    simp only [weightedPick] at h
    split at h
    · exact List.mem_cons.mpr (Or.inl (Option.some.inj h).symm)
    · split at h
      · next heq => exact List.mem_cons.mpr (Or.inr (ih (heq.trans h)))
      · exact List.mem_cons.mpr (Or.inl (Option.some.inj h).symm)

theorem weightedPick_isSome {y : Nat × ServiceInstance}
    {ys : List (Nat × ServiceInstance)} {w cur : Int} :
    (weightedPick w cur (y :: ys)).isSome := by
  simp only [weightedPick]
  split
  · rfl
  · split <;> rfl

/-- A fold that at each step keeps either the accumulator or the new
element ends at the accumulator or at a list element. -/
theorem foldl_choice {α : Type} {f : α → α → α}
    (hf : ∀ a b, f a b = a ∨ f a b = b) :
    ∀ (xs : List α) (acc : α), xs.foldl f acc = acc ∨ xs.foldl f acc ∈ xs := by
  intro xs
  induction xs with
  | nil => intro acc; exact Or.inl rfl
  | cons y ys ih =>
    intro acc
    rcases ih (f acc y) with h | h
    · rcases hf acc y with h2 | h2
      · exact Or.inl (by rw [List.foldl_cons, h, h2])
      · exact Or.inr (by rw [List.foldl_cons, h, h2]; exact List.mem_cons_self _ _)
    · exact Or.inr (List.mem_cons_of_mem _ (by rw [List.foldl_cons]; exact h))

theorem leastConnSelect_mem {l : List (Nat × ServiceInstance)}
    {x : Nat × ServiceInstance} (h : leastConnSelect l = some x) : x ∈ l := by
  cases l with
  | nil => simp [leastConnSelect] at h
  | cons y ys =>
    simp only [leastConnSelect, Option.some.injEq] at h
    have hc := foldl_choice
      (f := fun sel p => if p.2.connections < sel.2.connections then p else sel)
      (fun a b => by by_cases hab : b.2.connections < a.2.connections <;> simp [hab])
      ys y
    rw [h] at hc
    rcases hc with h1 | h1
    · exact List.mem_cons.mpr (Or.inl h1)
    · exact List.mem_cons_of_mem _ h1

/-- Whatever the strategy, a selected pair comes from the healthy list. -/
theorem selectInstance_mem {strategy : String} {counters : String → Int}
    {name : String} {hl : List (Nat × ServiceInstance)} {r : Nat}
    {p : Nat × ServiceInstance} {counters' : String → Int}
    (h : selectInstance strategy counters name hl r = some (p, counters')) :
    p ∈ hl := by
  unfold selectInstance at h
  split_ifs at h
  · obtain ⟨q, hq, hqe⟩ := Option.map_eq_some'.mp h
    cases hqe
    exact goIndex_mem hq
  · obtain ⟨q, hq, hqe⟩ := Option.map_eq_some'.mp h
    cases hqe
    obtain ⟨a, _, hq2⟩ := Option.bind_eq_some.mp hq
    exact goIndex_mem hq2
  · obtain ⟨q, hq, hqe⟩ := Option.map_eq_some'.mp h
    cases hqe
    unfold weightedSelect at hq
    split_ifs at hq
    · obtain ⟨a, _, hq2⟩ := Option.bind_eq_some.mp hq
      exact goIndex_mem hq2
    · obtain ⟨a, _, hq2⟩ := Option.bind_eq_some.mp hq
      exact weightedPick_mem hq2
  · obtain ⟨q, hq, hqe⟩ := Option.map_eq_some'.mp h
    cases hqe
    exact leastConnSelect_mem hq
  · obtain ⟨q, hq, hqe⟩ := Option.map_eq_some'.mp h
    cases hqe
    exact List.mem_of_mem_head? (Option.mem_def.mpr hq)

/-- On a non-empty healthy list the strategy switch yields a selection,
provided round-robin's counter is non-negative (it always is in reachable
states: counters start at 0 and are only ever written values in
`[0, len)`) and the weighted total is non-negative (`rand.Intn` with a
negative bound would panic in Go). -/
theorem selectInstance_isSome {strategy : String} {counters : String → Int}
    {name : String} {hl : List (Nat × ServiceInstance)} {r : Nat}
    (hne : 0 < hl.length)
    (hcnt : strategy = "round_robin" → 0 ≤ counters name)
    (hw : strategy = "weighted" → 0 ≤ sumWeights hl) :
    (selectInstance strategy counters name hl r).isSome := by
  have hlen : (0 : Int) < (hl.length : Int) := by exact_mod_cast hne
  unfold selectInstance
  have hrand : ((goIntn (hl.length : Int) r).bind (goIndex hl)).isSome := by
    rw [goIntn, if_neg (by omega)]
    rw [Option.some_bind]
    exact goIndex_isSome (Int.emod_nonneg _ (by omega)) (Int.emod_lt_of_pos _ hlen)
  split_ifs with h1 h2 h3 h4
  · have h0 : 0 ≤ goMod (counters name) (hl.length : Int) :=
      Int.tmod_nonneg _ (hcnt h1)
    have hlt : goMod (counters name) (hl.length : Int) < (hl.length : Int) :=
      Int.tmod_lt_of_pos _ hlen
    rw [Option.isSome_map']
    exact goIndex_isSome h0 hlt
  · rw [Option.isSome_map']
    exact hrand
  · rw [Option.isSome_map']
    unfold weightedSelect
    split_ifs with hsw
    · exact hrand
    · have hswpos : 0 < sumWeights hl := lt_of_le_of_ne (hw h3) (Ne.symm hsw)
      rw [goIntn, if_neg (by omega), Option.some_bind]
      cases hl with
      | nil => simp at hne
      | cons y ys => exact weightedPick_isSome
  · rw [Option.isSome_map']
    cases hl with
    | nil => simp at hne
    | cons y ys => rfl
  · rw [Option.isSome_map']
    cases hl with
    | nil => simp at hne
    | cons y ys => rfl

/-- Anatomy of a successful `GetInstance`: the selected bucket slot held a
healthy instance, the returned instance is that instance with its
connection count incremented by exactly one, the slot is overwritten with
it before returning, other buckets are untouched. -/
theorem getInstance_ok_spec {lb : LoadBalancer} {name : String} {r : Nat}
    {lb' : LoadBalancer} {i : Nat} {inst : ServiceInstance}
    (h : getInstance lb name r = some (.ok (lb', i, inst))) :
    ∃ l old, lb.services name = some l ∧ l.get? i = some old ∧ old.healthy = true ∧
      inst = { old with connections := old.connections + 1 } ∧
      lb'.strategy = lb.strategy ∧
      lb'.counters = (match selectInstance lb.strategy lb.counters name (healthyEnum l) r with
        | some (_, c) => c
        | none => lb.counters) ∧
      lb'.services name = some (l.set i inst) ∧
      (∀ s, s ≠ name → lb'.services s = lb.services s) := by
  unfold getInstance at h
  cases hsvc : lb.services name with
  | none => rw [hsvc] at h; simp at h
  | some instances =>
    rw [hsvc] at h
    dsimp only at h
    by_cases hlen : instances.length = 0
    · rw [if_pos hlen] at h; simp at h
    · rw [if_neg hlen] at h
      by_cases hhl : (healthyEnum instances).length = 0
      · rw [if_pos hhl] at h; simp at h
      · rw [if_neg hhl] at h
        cases hsel : selectInstance lb.strategy lb.counters name (healthyEnum instances) r with
        | none => rw [hsel] at h; simp at h
        | some pc =>
          obtain ⟨⟨i0, inst0⟩, cnts⟩ := pc
          rw [hsel] at h
          simp only [Option.some.injEq, Except.ok.injEq, Prod.mk.injEq] at h
          obtain ⟨hlb', hi, hinst⟩ := h
          subst hi
          subst hinst
          obtain ⟨t, ht1, ht2, ht3⟩ := healthyEnumFrom_mem (selectInstance_mem hsel)
          simp only at ht1 ht2
          rw [Nat.zero_add] at ht1
          subst ht1
          refine ⟨instances, inst0, rfl, ht2, ht3, rfl, ?_, ?_, ?_, ?_⟩
          · rw [← hlb']
          · rw [← hlb', hsel]
          · rw [← hlb']
            simp
          · intro s hs
            rw [← hlb']
            simp [hs]

/-- The `GetInstance` on an unknown service name. -/
theorem getInstance_none {lb : LoadBalancer} {name : String} (r : Nat)
    (hsvc : lb.services name = none) :
    getInstance lb name r = some (.error "no available instances") := by
  unfold getInstance
  rw [hsvc]

/-- The `GetInstance` on an empty bucket. -/
theorem getInstance_nil {lb : LoadBalancer} {name : String} (r : Nat)
    (hsvc : lb.services name = some []) :
    getInstance lb name r = some (.error "no available instances") := by
  unfold getInstance
  rw [hsvc]
  rfl

/-- The `GetInstance` past the two error guards. -/
theorem getInstance_eq {lb : LoadBalancer} {name : String} (r : Nat)
    {l : List ServiceInstance} (hsvc : lb.services name = some l) (hl0 : l ≠ []) :
    getInstance lb name r =
      (if (healthyEnum l).length = 0 then some (.error "no healthy instances")
       else
        match selectInstance lb.strategy lb.counters name (healthyEnum l) r with
        | none => none
        | some ((i, inst0), counters') =>
          some (.ok
            (⟨lb.strategy,
              fun s => if s = name then
                  some (l.set i { inst0 with connections := inst0.connections + 1 })
                else lb.services s,
              counters'⟩, i, { inst0 with connections := inst0.connections + 1 }))) := by
  unfold getInstance
  rw [hsvc]
  dsimp only
  rw [if_neg (by simpa [List.length_eq_zero] using hl0)]

/-- A non-empty bucket with no healthy member yields the no-healthy error. -/
theorem getInstance_unhealthy {lb : LoadBalancer} {name : String} (r : Nat)
    {l : List ServiceInstance} (hsvc : lb.services name = some l) (hl0 : l ≠ [])
    (hh : healthyEnum l = []) :
    getInstance lb name r = some (.error "no healthy instances") := by
  rw [getInstance_eq r hsvc hl0, if_pos (by rw [hh]; rfl)]

/-- The `ReleaseConnection` never drives a non-negative count negative. -/
theorem releaseConnection_nonneg {inst : ServiceInstance}
    (h : 0 ≤ inst.connections) : 0 ≤ (releaseConnection inst).connections := by
  unfold releaseConnection
  split
  · next hc =>
      show 0 ≤ inst.connections - 1
      omega
  · exact h

/-- One operation preserves non-negativity of all connection counts. -/
theorem connNonneg_applyOp {lb : LoadBalancer} (h : connNonneg lb) (op : LBOp) :
    connNonneg (applyOp lb op) := by
  cases op with
  | get name r =>
    cases hres : getInstance lb name r with
    | none => simpa [applyOp, hres] using h
    | some e =>
      cases e with
      | error s => simpa [applyOp, hres] using h
      | ok t =>
        obtain ⟨lb', i, inst⟩ := t
        have hspec := getInstance_ok_spec hres
        obtain ⟨l, old, hsvc, hget, hh, hinst, _, _, hset, hother⟩ := hspec
        have hstep : applyOp lb (.get name r) = lb' := by simp [applyOp, hres]
        rw [hstep]
        intro s ls hs x hx
        by_cases hsn : s = name
        · subst hsn
          rw [hset] at hs
          cases hs
          rcases List.mem_or_eq_of_mem_set hx with hx1 | hx1
          · exact h _ _ hsvc _ hx1
          · subst hx1
            have hold : 0 ≤ old.connections := h _ _ hsvc _ (List.get?_mem hget)
            rw [hinst]
            show 0 ≤ old.connections + 1
            omega
        · rw [hother s hsn] at hs
          exact h _ _ hs _ hx
  | release name i =>
    show connNonneg (releaseConnAt lb name i)
    cases hsvc : lb.services name with
    | none =>
      have heq : releaseConnAt lb name i = lb := by
        unfold releaseConnAt
        rw [hsvc]
      rw [heq]; exact h
    | some l =>
      cases hget : l.get? i with
      | none =>
        have heq : releaseConnAt lb name i = lb := by
          unfold releaseConnAt
          rw [hsvc]
          dsimp only
          rw [hget]
        rw [heq]; exact h
      | some inst =>
        have heq : releaseConnAt lb name i =
            ⟨lb.strategy,
              fun s => if s = name then some (l.set i (releaseConnection inst))
                else lb.services s,
              lb.counters⟩ := by
          unfold releaseConnAt
          rw [hsvc]
          dsimp only
          rw [hget]
        rw [heq]
        intro s ls hs x hx
        by_cases hsn : s = name
        · subst hsn
          simp only [if_pos rfl] at hs
          cases hs
          rcases List.mem_or_eq_of_mem_set hx with hx1 | hx1
          · exact h _ _ hsvc _ hx1
          · subst hx1
            exact releaseConnection_nonneg (h _ _ hsvc _ (List.get?_mem hget))
        · simp only [if_neg hsn] at hs
          exact h _ _ hs _ hx

/-- Any operation sequence preserves non-negativity. -/
theorem connNonneg_applyOps {lb : LoadBalancer} (h : connNonneg lb)
    (ops : List LBOp) : connNonneg (applyOps lb ops) := by
  induction ops generalizing lb with
  | nil => exact h
  | cons op rest ih => exact ih (connNonneg_applyOp h op)

/-- Overwriting a bucket slot with an instance of the same health leaves
the healthy filter's bucket positions (and hence its length) unchanged. -/
theorem healthyEnumFrom_set_map_fst {l : List ServiceInstance} :
    ∀ {t : Nat} {a b : ServiceInstance} {j : Nat}, l.get? t = some a →
      b.healthy = a.healthy →
      (healthyEnumFrom j (l.set t b)).map Prod.fst =
        (healthyEnumFrom j l).map Prod.fst := by
  induction l with
  | nil => intro t a b j hget _; cases hget
  | cons x xs ih =>
    intro t a b j hget hh
    cases t with
    | zero =>
      cases hget
      rw [List.set_cons_zero]
      by_cases hx : x.healthy
      · rw [healthyEnumFrom, healthyEnumFrom,
          if_pos (show b.healthy = true by rw [hh]; exact hx), if_pos hx]
        rfl
      · rw [healthyEnumFrom, healthyEnumFrom,
          if_neg (show ¬ b.healthy = true by rw [hh]; exact hx), if_neg hx]
    | succ t' =>
      rw [List.set_cons_succ]
      by_cases hx : x.healthy
      · rw [healthyEnumFrom, healthyEnumFrom, if_pos hx, if_pos hx,
          List.map_cons, List.map_cons, ih hget hh]
      · rw [healthyEnumFrom, healthyEnumFrom, if_neg hx, if_neg hx, ih hget hh]

/-- Bucket positions recorded by the healthy filter are bounded below by
the starting index. -/
theorem healthyEnumFrom_le {l : List ServiceInstance} {j : Nat}
    {x : Nat × ServiceInstance} (hx : x ∈ healthyEnumFrom j l) : j ≤ x.1 := by
  obtain ⟨t, ht, -, -⟩ := healthyEnumFrom_mem hx
  omega

/-- The healthy filter's bucket positions are strictly increasing. -/
theorem healthyEnumFrom_pairwise {l : List ServiceInstance} :
    ∀ {j : Nat}, List.Pairwise (fun a b => a.1 < b.1) (healthyEnumFrom j l) := by
  induction l with
  | nil => intro j; exact List.Pairwise.nil
  | cons x xs ih =>
    intro j
    by_cases hx : x.healthy
    · rw [healthyEnumFrom, if_pos hx]
      exact List.Pairwise.cons
        (fun y hy => Nat.lt_of_lt_of_le (Nat.lt_succ_self j) (healthyEnumFrom_le hy)) ih
    · rw [healthyEnumFrom, if_neg hx]
      exact ih

/-- Distinct healthy positions map to distinct bucket indices. -/
theorem nthHealthyIdx_inj {l : List ServiceInstance} {p q : Nat}
    (hp : p < (healthyEnum l).length) (hq : q < (healthyEnum l).length)
    (h : nthHealthyIdx l p = nthHealthyIdx l q) : p = q := by
  unfold nthHealthyIdx at h
  rw [List.get?_eq_get hp, List.get?_eq_get hq] at h
  simp only [Option.map_some', Option.getD_some] at h
  by_contra hne
  have hpair := healthyEnumFrom_pairwise (l := l) (j := 0)
  rw [List.pairwise_iff_get] at hpair
  rcases Nat.lt_or_ge p q with hlt | hge
  · exact absurd h (Nat.ne_of_lt (hpair ⟨p, hp⟩ ⟨q, hq⟩ hlt))
  · have hlt : q < p := Nat.lt_of_le_of_ne hge (fun he => hne he.symm)
    exact absurd h.symm (Nat.ne_of_lt (hpair ⟨q, hq⟩ ⟨p, hp⟩ hlt))

/-- Buckets with identical healthy-position structure have identical
`nthHealthyIdx`. -/
theorem nthHealthyIdx_congr {l l' : List ServiceInstance}
    (hmap : (healthyEnum l').map Prod.fst = (healthyEnum l).map Prod.fst)
    (p : Nat) : nthHealthyIdx l' p = nthHealthyIdx l p := by
  unfold nthHealthyIdx
  rw [← List.get?_map, ← List.get?_map, hmap]

/-- Go's `%` on two natural casts is the natural `%`. -/
theorem goMod_natCast (a b : Nat) : goMod (a : Int) (b : Int) = ((a % b : Nat) : Int) :=
  rfl

/-- One round-robin `GetInstance`: the healthy instance at position
`counter % k` is selected, its connection count incremented in place, and
the counter advanced by exactly one modulo `k`. -/
theorem getInstance_rr_step {lb : LoadBalancer} {name : String}
    {l : List ServiceInstance} {k c : Nat}
    (hstrat : lb.strategy = "round_robin")
    (hsvc : lb.services name = some l)
    (hk : (healthyEnum l).length = k) (hkpos : 0 < k)
    (hc : lb.counters name = (c : Int)) :
    ∃ (io : ServiceInstance) (lb' : LoadBalancer),
      getInstance lb name 0 =
        some (.ok (lb', nthHealthyIdx l (c % k),
          { io with connections := io.connections + 1 }))
      ∧ lb'.strategy = "round_robin"
      ∧ lb'.services name =
          some (l.set (nthHealthyIdx l (c % k))
            { io with connections := io.connections + 1 })
      ∧ (healthyEnum (l.set (nthHealthyIdx l (c % k))
            { io with connections := io.connections + 1 })).map Prod.fst =
          (healthyEnum l).map Prod.fst
      ∧ lb'.counters name = (((c + 1) % k : Nat) : Int) := by
  have hl0 : l ≠ [] := by
    intro he
    subst he
    have h0 : (healthyEnum ([] : List ServiceInstance)).length = 0 := rfl
    omega
  have hmodlt : c % k < (healthyEnum l).length := by
    rw [hk]; exact Nat.mod_lt _ hkpos
  have hget : (healthyEnum l).get? (c % k) =
      some ((healthyEnum l).get ⟨c % k, hmodlt⟩) := List.get?_eq_get hmodlt
  set pr := (healthyEnum l).get ⟨c % k, hmodlt⟩ with hpr
  have hnth : nthHealthyIdx l (c % k) = pr.1 := by
    unfold nthHealthyIdx
    rw [hget]
    rfl
  have hsel : selectInstance lb.strategy lb.counters name (healthyEnum l) 0 =
      some ((pr.1, pr.2), fun s =>
        if s = name then goMod (lb.counters name + 1) ((healthyEnum l).length : Int)
        else lb.counters s) := by
    unfold selectInstance
    rw [hstrat, if_pos rfl]
    dsimp only
    rw [hc, hk, goMod_natCast]
    unfold goIndex
    rw [if_pos (Int.natCast_nonneg _), Int.toNat_natCast, hget]
    rw [← hc, ← hk]
    rfl
  obtain ⟨t, ht1, ht2, ht3⟩ := healthyEnumFrom_mem (List.get?_mem hget)
  rw [Nat.zero_add] at ht1
  have hmap : (healthyEnum (l.set (nthHealthyIdx l (c % k))
      { pr.2 with connections := pr.2.connections + 1 })).map Prod.fst =
      (healthyEnum l).map Prod.fst := by
    rw [hnth, ht1]
    exact healthyEnumFrom_set_map_fst ht2 rfl
  refine ⟨pr.2,
    ⟨lb.strategy,
      fun s => if s = name then
          some (l.set (nthHealthyIdx l (c % k))
            { pr.2 with connections := pr.2.connections + 1 })
        else lb.services s,
      fun s => if s = name then goMod (lb.counters name + 1) ((healthyEnum l).length : Int)
        else lb.counters s⟩,
    ?_, hstrat, ?_, hmap, ?_⟩
  · rw [getInstance_eq 0 hsvc hl0, if_neg (by omega), hsel, hnth]
  · show (if name = name then
        some (l.set (nthHealthyIdx l (c % k))
          { pr.2 with connections := pr.2.connections + 1 })
      else lb.services name) = _
    rw [if_pos rfl]
  · show (if name = name then goMod (lb.counters name + 1) ((healthyEnum l).length : Int)
        else lb.counters name) = _
    rw [if_pos rfl, hc, hk,
      show ((c : Int) + 1) = ((c + 1 : Nat) : Int) by push_cast; ring, goMod_natCast]

/-- Unfolding one successful step of the iterator. -/
theorem getInstanceIter_succ (name : String) (N : Nat) (lb : LoadBalancer)
    {lb' : LoadBalancer} {i : Nat} {inst : ServiceInstance}
    (h : getInstance lb name 0 = some (.ok (lb', i, inst))) :
    getInstanceIter name (N + 1) lb =
      (i :: (getInstanceIter name N lb').1, (getInstanceIter name N lb').2) := by
  simp only [getInstanceIter, h]

/-- The `N` round-robin selections from a fixed bucket: the selected bucket
indices are exactly the healthy positions `c, c+1, …` wrapped modulo `k`,
and the counter ends at `(c + N) % k`. -/
theorem getInstanceIter_rr {name : String} :
    ∀ (N : Nat) (lb : LoadBalancer) (l : List ServiceInstance) (k c : Nat),
      lb.strategy = "round_robin" →
      lb.services name = some l →
      (healthyEnum l).length = k → 0 < k →
      lb.counters name = (c : Int) → c < k →
      (getInstanceIter name N lb).1 =
        (List.range N).map (fun j => nthHealthyIdx l ((c + j) % k))
      ∧ (getInstanceIter name N lb).2.counters name = (((c + N) % k : Nat) : Int) := by
  intro N
  induction N with
  | zero =>
    intro lb l k c hstrat hsvc hk hkpos hc hck
    refine ⟨rfl, ?_⟩
    show lb.counters name = _
    rw [hc, Nat.add_zero, Nat.mod_eq_of_lt hck]
  | succ N ih =>
    intro lb l k c hstrat hsvc hk hkpos hc hck
    obtain ⟨io, lb', hgi, hstrat', hsvc', hmap, hcnt'⟩ :=
      getInstance_rr_step hstrat hsvc hk hkpos hc
    have hk' : (healthyEnum (l.set (nthHealthyIdx l (c % k))
        { io with connections := io.connections + 1 })).length = k := by
      have hlen := congrArg List.length hmap
      rwa [List.length_map, List.length_map, hk] at hlen
    have hmodlt : (c + 1) % k < k := Nat.mod_lt _ hkpos
    obtain ⟨ih1, ih2⟩ := ih lb' _ k ((c + 1) % k) hstrat' hsvc' hk' hkpos hcnt' hmodlt
    rw [getInstanceIter_succ name N lb hgi]
    dsimp only
    constructor
    · rw [ih1, List.range_succ_eq_map, List.map_cons, List.map_map]
      rw [Nat.add_zero]
      congr 1
      apply List.map_congr_left
      intro j _
      show nthHealthyIdx _ (((c + 1) % k + j) % k) = nthHealthyIdx l ((c + Nat.succ j) % k)
      rw [nthHealthyIdx_congr hmap, Nat.mod_add_mod,
        show c + 1 + j = c + Nat.succ j by omega]
    · rw [ih2, Nat.mod_add_mod, show c + 1 + N = c + (N + 1) by omega]

/-- In a window shorter than the modulus there is at most one solution of
`(c + j) % k = p`. -/
theorem countP_window_le_one {k c p s : Nat} (hs : s ≤ k) :
    (List.range s).countP (fun j => (c + j) % k == p) ≤ 1 := by
  rw [List.countP_eq_length_filter]
  rcases hf : (List.range s).filter (fun j => (c + j) % k == p) with _ | ⟨x, _ | ⟨y, t⟩⟩
  · simp
  · simp
  · exfalso
    have hnd := (List.nodup_range s).filter (fun j => (c + j) % k == p)
    rw [hf] at hnd
    have hxy : x ≠ y := by
      have := (List.nodup_cons.mp hnd).1
      intro he
      exact this (he ▸ List.mem_cons_self _ _)
    have hxmem : x ∈ (List.range s).filter (fun j => (c + j) % k == p) := by
      rw [hf]; exact List.mem_cons_self _ _
    have hymem : y ∈ (List.range s).filter (fun j => (c + j) % k == p) := by
      rw [hf]; exact List.mem_cons_of_mem _ (List.mem_cons_self _ _)
    obtain ⟨hxr, hxp⟩ := List.mem_filter.mp hxmem
    obtain ⟨hyr, hyp⟩ := List.mem_filter.mp hymem
    have hxr' : x < s := List.mem_range.mp hxr
    have hyr' : y < s := List.mem_range.mp hyr
    have hxp' : (c + x) % k = p := by simpa using hxp
    have hyp' : (c + y) % k = p := by simpa using hyp
    have h1 : (c + x) % k = (c + y) % k := by rw [hxp', hyp']
    have h3 : x ≡ y [MOD k] := Nat.ModEq.add_left_cancel' c h1
    have h4 : x % k = y % k := h3
    rw [Nat.mod_eq_of_lt (lt_of_lt_of_le hxr' hs),
      Nat.mod_eq_of_lt (lt_of_lt_of_le hyr' hs)] at h4
    exact hxy h4

/-- Every window of full length `k` contains a solution of
`(c + j) % k = p`. -/
theorem window_exists {k c p : Nat} (hk : 0 < k) (hp : p < k) :
    ∃ j, j < k ∧ (c + j) % k = p := by
  have hmlt : c % k < k := Nat.mod_lt _ hk
  have hdm := Nat.div_add_mod c k
  by_cases hle : c % k ≤ p
  · refine ⟨p - c % k, by omega, ?_⟩
    have he : c + (p - c % k) = k * (c / k) + p := by omega
    rw [he, Nat.mul_add_mod, Nat.mod_eq_of_lt hp]
  · refine ⟨p + k - c % k, by omega, ?_⟩
    have he : c + (p + k - c % k) = k * (c / k) + (p + k) := by omega
    rw [he, Nat.mul_add_mod, Nat.add_mod_right, Nat.mod_eq_of_lt hp]

/-- Every window of full length `k` contains exactly one solution. -/
theorem countP_window_eq_one {k c p : Nat} (hk : 0 < k) (hp : p < k) :
    (List.range k).countP (fun j => (c + j) % k == p) = 1 := by
  have hle := countP_window_le_one (k := k) (c := c) (p := p) (le_refl k)
  have hpos : 0 < (List.range k).countP (fun j => (c + j) % k == p) := by
    obtain ⟨j, hj, hjp⟩ := window_exists (c := c) hk hp
    exact List.countP_pos.mpr ⟨j, List.mem_range.mpr hj, by simp [hjp]⟩
  omega

/-- Over `q` full cycles every residue is hit exactly `q` times. -/
theorem countP_cycles {k p : Nat} (hk : 0 < k) (hp : p < k) :
    ∀ (q c : Nat), (List.range (q * k)).countP (fun j => (c + j) % k == p) = q := by
  intro q
  induction q with
  | zero => intro c; simp
  | succ q ih =>
    intro c
    rw [show (q + 1) * k = q * k + k by ring, List.range_add, List.countP_append,
      ih, List.countP_map]
    have hcongr : ∀ x ∈ List.range k,
        (((fun j => (c + j) % k == p) ∘ (fun y => q * k + y)) x = true ↔
          ((fun j => (c + j) % k == p) x = true)) := by
      intro x _
      show ((c + (q * k + x)) % k == p) = true ↔ ((c + x) % k == p) = true
      rw [show c + (q * k + x) = (c + x) + q * k by ring, Nat.add_mul_mod_self_right]
    rw [List.countP_congr hcongr, countP_window_eq_one hk hp]

/-- Over any range the number of hits of one residue is the floor or the
ceiling of `N / k`. -/
theorem countP_range_floor_ceil {k p : Nat} (hk : 0 < k) (hp : p < k) (N c : Nat) :
    (List.range N).countP (fun j => (c + j) % k == p) = N / k
    ∨ (List.range N).countP (fun j => (c + j) % k == p) = (N + k - 1) / k := by
  obtain ⟨q, s, hN, hsk, hq, hs⟩ :
      ∃ q s, N = q * k + s ∧ s < k ∧ q = N / k ∧ s = N % k :=
    ⟨N / k, N % k, by rw [Nat.mul_comm]; exact (Nat.div_add_mod N k).symm,
      Nat.mod_lt _ hk, rfl, rfl⟩
  have hsplit : (List.range N).countP (fun j => (c + j) % k == p)
      = q + (List.range s).countP (fun j => (c + j) % k == p) := by
    rw [hN, List.range_add, List.countP_append, countP_cycles hk hp, List.countP_map]
    congr 1
    apply List.countP_congr
    intro x _
    show ((c + (q * k + x)) % k == p) = true ↔ ((c + x) % k == p) = true
    rw [show c + (q * k + x) = (c + x) + q * k by ring, Nat.add_mul_mod_self_right]
  have ht := countP_window_le_one (k := k) (c := c) (p := p) (le_of_lt hsk)
  have hdiv : N / k = q := by
    rw [hN, Nat.mul_comm, Nat.mul_add_div hk, Nat.div_eq_of_lt hsk, Nat.add_zero]
  rcases Nat.le_one_iff_eq_zero_or_eq_one.mp ht with ht0 | ht1
  · left
    rw [hsplit, ht0, hdiv, Nat.add_zero]
  · right
    have hs0 : s ≠ 0 := by
      intro he
      rw [he] at ht1
      simp [List.range_zero] at ht1
    have hceil : (N + k - 1) / k = q + 1 := by
      have he : N + k - 1 = k * (q + 1) + (s - 1) := by
        rw [hN, show k * (q + 1) = q * k + k by ring]
        omega
      rw [he, Nat.mul_add_div hk, Nat.div_eq_of_lt (by omega), Nat.add_zero]
    rw [hsplit, ht1, hceil]

/-! ## Claim theorems -/

/-- C9 counterexample: no request load ever reaches the 429 branch of the
rate-limit middleware, because `isRateLimited` is a constant-false stub;
the claimed limited branch is unreachable. -/
theorem c9_counterexample : ¬ ∃ ip : String, rateLimitMiddleware ip = .abort 429 := by
  rintro ⟨ip, h⟩
  simp [rateLimitMiddleware, isRateLimited] at h

/-- C9 (amended): the chain does install a rate-limit middleware with a
429-and-abort branch, but its predicate `isRateLimited` returns `false`
for every client, so every request falls through un-limited and the 429
branch is dead code. -/
theorem c9_rate_limit_dead (ip : String) :
    isRateLimited ip = false ∧ rateLimitMiddleware ip = .next :=
  ⟨rfl, rfl⟩

/-- C10: `validateToken` accepts exactly the tokens longer than 10 bytes
that are neither the literal "invalid" nor "expired" (both literals are 7
bytes, so in particular every token of length ≤ 10 and both literals are
rejected), and for every accepted token the auth middleware attaches the
same fixed user info (user_id "12345", username "test_user", role "user")
to the request context, regardless of the token's content. -/
theorem c10_token_validation (token : String) (now : Nat) :
    (validateToken token = true ↔
      10 < token.utf8ByteSize ∧ token ≠ "invalid" ∧ token ≠ "expired")
    ∧ extractUserFromToken token now =
        { userId := "12345", username := "test_user", role := "user", exp := now + 3600 }
    ∧ (validateToken token = true →
        authMiddleware (some ("Bearer " ++ token)) now =
          .next { userId := "12345", username := "test_user", role := "user", exp := now + 3600 }) := by
  refine ⟨?_, rfl, ?_⟩
  · by_cases h : token = "invalid" ∨ token = "expired"
    · rcases h with h | h <;> subst h <;> decide
    · push_neg at h
      simp [validateToken, h.1, h.2, decide_eq_true_iff]
  · intro h
    have hdata : ("Bearer " ++ token).data = "Bearer ".data ++ token.data :=
      String.data_append _ _
    have hne : ("Bearer " ++ token) ≠ "" := by
      intro he
      have hd := congrArg String.data he
      rw [hdata] at hd
      simp at hd
    have hpre : List.isPrefixOf "Bearer ".data ("Bearer " ++ token).data = true := by
      rw [hdata]
      exact List.isPrefixOf_iff_prefix.mpr (List.prefix_append _ _)
    have hdrop : ("Bearer " ++ token).data.drop 7 = token.data := by
      rw [hdata]
      have h7 : ("Bearer ".data).length = 7 := rfl
      rw [← h7, List.drop_left]
    have htne : token ≠ "" := by
      intro he; subst he; exact absurd h (by decide)
    simp only [authMiddleware, Option.getD]
    rw [if_neg hne, if_neg (by simp [hpre]), hdrop]
    rw [if_neg (by simpa using htne), if_neg (by simp [h])]
    rfl

/-- C10 witness: a concrete accepted token. -/
theorem c10_witness :
    validateToken "valid-token-123" = true ∧
    authMiddleware (some "Bearer valid-token-123") 50 =
      .next { userId := "12345", username := "test_user", role := "user", exp := 3650 } := by
  have h := (c10_token_validation "valid-token-123" 50).2.2 (by decide)
  have hs : ("Bearer " ++ "valid-token-123") = "Bearer valid-token-123" := rfl
  rw [hs] at h
  exact ⟨by decide, h⟩

/-- C6 counterexample: a probe of the Gateway's own health-check loop that
fails at the transport level marks the instance unhealthy but leaves
`FailureCount` at 0 instead of incrementing it, and the loop always
probes `url + "/health"`, ignoring a non-default `HealthCheckPath`. -/
theorem c6_counterexample :
    (applyGatewayProbe instOk none 5 7).healthy = false
    ∧ (applyGatewayProbe instOk none 5 7).failureCount = 0
    ∧ (applyGatewayProbe instOk none 5 7).failureCount ≠ instOk.failureCount + 1
    ∧ gatewayProbeURL { instOk with healthCheckPath := "/status" } =
        "http://localhost:9000/health" := by
  exact ⟨rfl, rfl, by decide, rfl⟩

/-- C6 (amended): the registry probe path behaves exactly as the claim
states — GET to `url + healthCheckPath` (falling back to "/health" when
the path is empty), success iff the status is exactly 200, failure sets
`Healthy = false` and increments `FailureCount`, success sets
`Healthy = true` and resets `FailureCount` to 0, and one probe step
rewrites exactly the probed bucket slot.  The Gateway's own health-check
loop differs: it always GETs `url + "/health"` and sets `Healthy` iff the
status is 200, but never modifies `FailureCount`. -/
theorem c6_probe_semantics (inst : ServiceInstance) (resp : Option Int)
    (now : Nat) (rt : Int) :
    (registryProbeOk inst resp = true ↔ inst.url ≠ "" ∧ resp = some 200)
    ∧ (inst.healthCheckPath ≠ "" → registryProbeURL inst = inst.url ++ inst.healthCheckPath)
    ∧ (inst.healthCheckPath = "" → registryProbeURL inst = inst.url ++ "/health")
    ∧ ((applyRegistryProbe inst true now).healthy = true
        ∧ (applyRegistryProbe inst true now).failureCount = 0
        ∧ (applyRegistryProbe inst true now).lastCheck = now)
    ∧ ((applyRegistryProbe inst false now).healthy = false
        ∧ (applyRegistryProbe inst false now).failureCount = inst.failureCount + 1
        ∧ (applyRegistryProbe inst false now).lastCheck = now)
    ∧ ((applyGatewayProbe inst none now rt).healthy = false
        ∧ (applyGatewayProbe inst none now rt).failureCount = inst.failureCount
        ∧ (applyGatewayProbe inst none now rt).lastCheck = inst.lastCheck)
    ∧ (∀ code : Int,
        (applyGatewayProbe inst (some code) now rt).healthy = decide (code = 200)
        ∧ (applyGatewayProbe inst (some code) now rt).failureCount = inst.failureCount)
    ∧ gatewayProbeURL inst = inst.url ++ "/health"
    ∧ (∀ (reg : Registry) (name : String) (i : Nat) (ok : Bool)
          (l : List ServiceInstance),
        reg.services name = some l → l.get? i = some inst →
        (registryProbeStep reg name i ok now).1.services name =
          some (l.set i (applyRegistryProbe inst ok now))) := by
  refine ⟨?_, ?_, ?_, ⟨rfl, rfl, rfl⟩, ⟨rfl, rfl, rfl⟩, ⟨rfl, rfl, rfl⟩,
    fun code => ⟨rfl, rfl⟩, rfl, ?_⟩
  · simp [registryProbeOk]
  · intro hne; simp [registryProbeURL, hne]
  · intro he; simp [registryProbeURL, he]
  · intro reg name i ok l hreg hget
    rw [List.get?_eq_getElem?] at hget
    simp [registryProbeStep, hreg, hget]

/-- C6 witness: concrete registry probe outcomes. -/
theorem c6_witness :
    (applyRegistryProbe instOk false 9).failureCount = 1
    ∧ (applyRegistryProbe instOk false 9).healthy = false
    ∧ (registryProbeStep regC7 "svc" 0 false 9).1.services "svc" =
        some [applyRegistryProbe instOk false 9] := by
  have h := c6_probe_semantics instOk (some 500) 9 3
  refine ⟨?_, h.2.2.2.2.1.1, ?_⟩
  · have := h.2.2.2.2.1.2.1
    simpa [instOk] using this
  · have step := h.2.2.2.2.2.2.2.2 regC7 "svc" 0 false [instOk] (by decide) rfl
    simpa using step

/-- C7 counterexample: re-registering an existing instance id with only a
field-level update (a new URL; same id, same health) leaves membership
and health untouched, yet `Register` still invokes `notifyWatchers`,
sending a snapshot the claim says must not be sent. -/
theorem c7_counterexample :
    (match registryRegister regC7 instOkNewURL 9 with
      | .ok (reg', notified) => some (notified, idsHealth reg' "svc")
      | .error _ => none) = some (true, some [("svc-1", true)])
    ∧ idsHealth regC7 "svc" = some [("svc-1", true)] := by
  decide

/-- C7 (amended): a registry probe result notifies watchers exactly when
the instance's health flag transitions, and every successful `Register`
or `Unregister` notifies — including an in-place re-registration of an
existing id that changes neither membership nor any health flag. -/
theorem c7_watcher_notifications :
    (∀ (reg : Registry) (name : String) (i : Nat) (ok : Bool) (now : Nat)
        (l : List ServiceInstance) (inst : ServiceInstance),
      reg.services name = some l → l.get? i = some inst →
      ((registryProbeStep reg name i ok now).2 = true ↔ inst.healthy ≠ ok))
    ∧ (∀ (reg : Registry) (service : ServiceInstance) (now : Nat)
          (reg' : Registry) (notified : Bool),
        registryRegister reg service now = .ok (reg', notified) → notified = true)
    ∧ (∀ (reg : Registry) (name instanceID : String) (reg' : Registry) (notified : Bool),
        registryUnregister reg name instanceID = .ok (reg', notified) → notified = true) := by
  refine ⟨?_, ?_, ?_⟩
  · intro reg name i ok now l inst hreg hget
    rw [List.get?_eq_getElem?] at hget
    simp [registryProbeStep, hreg, hget, applyRegistryProbe_healthy]
  · intro reg service now reg' notified h
    by_cases hname : service.serviceName = ""
    · simp [registryRegister, hname] at h
    · simp only [registryRegister, if_neg hname] at h
      split at h <;>
        · simp only [Except.ok.injEq, Prod.mk.injEq] at h
          exact h.2.symm
  · intro reg name instanceID reg' notified h
    unfold registryUnregister at h
    split at h
    · exact absurd h (by simp)
    · split at h
      · simp only [Except.ok.injEq, Prod.mk.injEq] at h
        exact h.2.symm
      · exact absurd h (by simp)

/-- C7 witness: a transitioning probe notifies; a non-transitioning one
does not. -/
theorem c7_witness :
    (registryProbeStep regC7 "svc" 0 false 9).2 = true
    ∧ ¬ (registryProbeStep regC7 "svc" 0 true 9).2 = true := by
  have h1 := c7_watcher_notifications.1 regC7 "svc" 0 false 9 [instOk] instOk (by decide) rfl
  have h2 := c7_watcher_notifications.1 regC7 "svc" 0 true 9 [instOk] instOk (by decide) rfl
  constructor
  · exact h1.mpr (by decide)
  · intro hc
    exact absurd (h2.mp hc) (by decide)

/-- C1 (code bug): when the chosen instance's URL fails to parse,
`proxyRequest` answers 500 and returns *before* the
`defer ReleaseConnection` statement has executed, so the connection taken
by `GetInstance` is never released (the bucket shows connections = 1
afterwards).  The transport-failure (502) and success paths do release,
leaving the count at 0. -/
theorem c1_connection_leak_on_parse_failure :
    ((proxyRequest gC1 "student-api" 0 parseOracle true 200).map
        (fun p => (p.1, bucketConnections p.2.lb "student-api"))) = some (500, some [1])
    ∧ ((proxyRequest gC1ok "student-api" 0 parseOracle false 200).map
        (fun p => (p.1, bucketConnections p.2.lb "student-api"))) = some (502, some [0])
    ∧ ((proxyRequest gC1ok "student-api" 0 parseOracle true 200).map
        (fun p => (p.1, bucketConnections p.2.lb "student-api"))) = some (200, some [0]) := by
  decide

/-- C3 (code bug): after `DELETE /gateway/services/svc/unregister`
answers 200, the service is gone from the management view
(`g.services`), but its instance is still in the load balancer's bucket
and `GetInstance` still selects it — `unregisterService` never calls
`LoadBalancer.UnregisterService`. -/
theorem c3_unregister_leaves_load_balancer :
    (unregisterServiceHandler gC3reg "svc").1 = 200
    ∧ gC3unreg.services "svc" = none
    ∧ gC3unreg.lb.services "svc" =
        some [handlerInstance "svc" "http://localhost:9000" 5 100]
    ∧ getInstanceView gC3unreg.lb "svc" 0 = some (.ok (0, "svc-100")) := by
  decide

/-- C2 counterexample: a parseable configuration that leaves `port` (or
`timeout`) unset fails validation — validation runs before defaults are
filled, so loading does not succeed and the port/timeout defaults are
never applied. -/
theorem c2_counterexample :
    loadResultErr cfgUnset = some "config validation failed: invalid port: 0"
    ∧ loadResultErr { cfgUnset with port := 8080 } =
        some "config validation failed: timeout must be positive" := by
  constructor <;> rfl

/-- C2 (amended): `LoadConfig` validates before defaulting, so a config
with unset (zero) port or timeout is rejected and the port-8080 /
timeout-30s defaults are unreachable.  For every parseable config whose
port is in [1,65535], timeout positive, rate limit non-negative and
services well-formed, loading succeeds; port and timeout are preserved,
and an unset strategy, check interval, check timeout, rate limit, or
per-service weight defaults to "round_robin", 30s, 5s, 1000 and 1
respectively. -/
theorem c2_validate_then_default (c : GatewayConfig)
    (hport : 0 < c.port) (hport2 : c.port ≤ 65535) (htime : 0 < c.timeout)
    (hrate : 0 ≤ c.rateLimit)
    (hsvc : ∀ p ∈ c.services, p.2.url ≠ "" ∧ 0 ≤ p.2.weight) :
    loadConfigPipeline c = .ok (setDefaults c)
    ∧ (setDefaults c).port = c.port
    ∧ (setDefaults c).timeout = c.timeout
    ∧ ((setDefaults c).rateLimit = if c.rateLimit = 0 then 1000 else c.rateLimit)
    ∧ ((setDefaults c).loadBalancer.strategy =
        if c.loadBalancer.strategy = "" then "round_robin" else c.loadBalancer.strategy)
    ∧ ((setDefaults c).loadBalancer.checkInterval =
        if c.loadBalancer.checkInterval = 0 then 30000000000
        else c.loadBalancer.checkInterval)
    ∧ ((setDefaults c).loadBalancer.checkTimeout =
        if c.loadBalancer.checkTimeout = 0 then 5000000000
        else c.loadBalancer.checkTimeout)
    ∧ ((setDefaults c).services =
        c.services.map (fun p =>
          if p.2.weight = 0 then (p.1, { p.2 with weight := 1 }) else p)) := by
  refine ⟨?_, ?_, ?_, ?_, ?_, ?_, ?_, ?_⟩
  · unfold loadConfigPipeline validateConfig
    rw [if_neg (by omega), if_neg (by omega), if_neg (by omega),
      validateServices_ok c.services hsvc]
  · rw [setDefaults_eq]; exact if_neg (by omega)
  · rw [setDefaults_eq]; exact if_neg (by omega)
  · rw [setDefaults_eq]
  · rw [setDefaults_eq]
  · rw [setDefaults_eq]
  · rw [setDefaults_eq]
  · rw [setDefaults_eq]

/-- C2 witness: a concrete config with valid port/timeout and all
defaultable fields unset loads successfully with the documented
defaults. -/
theorem c2_witness :
    loadConfigPipeline cfgSparse = .ok (setDefaults cfgSparse)
    ∧ (setDefaults cfgSparse).port = 9090
    ∧ (setDefaults cfgSparse).loadBalancer.strategy = "round_robin"
    ∧ (setDefaults cfgSparse).loadBalancer.checkInterval = 30000000000
    ∧ (setDefaults cfgSparse).rateLimit = 1000 := by
  have h := c2_validate_then_default cfgSparse (by decide) (by decide) (by decide)
    (by decide) (by decide)
  exact ⟨h.1, by decide, by decide, by decide, by decide⟩

/-- C8: connection counts are non-negative under every sequence of
`GetInstance`/`ReleaseConnection` operations: a successful `GetInstance`
increments the selected instance's count by exactly one (writing it back
to the bucket slot before returning), `ReleaseConnection` decrements only
when the count is positive and floors at 0, and from any state with
non-negative counts every operation sequence keeps all counts
non-negative, even when releases outnumber selections. -/
theorem c8_connection_accounting (lb : LoadBalancer) (hinv : connNonneg lb) :
    (∀ name r lb' i inst, getInstance lb name r = some (.ok (lb', i, inst)) →
      ∃ l old, lb.services name = some l ∧ l.get? i = some old ∧
        inst.connections = old.connections + 1 ∧
        lb'.services name = some (l.set i inst))
    ∧ (∀ inst : ServiceInstance, 0 < inst.connections →
        (releaseConnection inst).connections = inst.connections - 1)
    ∧ (∀ inst : ServiceInstance, inst.connections ≤ 0 → releaseConnection inst = inst)
    ∧ ∀ ops : List LBOp, connNonneg (applyOps lb ops) := by
  refine ⟨?_, ?_, ?_, connNonneg_applyOps hinv⟩
  · intro name r lb' i inst h
    obtain ⟨l, old, hsvc, hget, _, hinst, _, _, hset, _⟩ := getInstance_ok_spec h
    exact ⟨l, old, hsvc, hget, by rw [hinst], hset⟩
  · intro inst hc
    unfold releaseConnection
    rw [if_pos hc]
  · intro inst hc
    unfold releaseConnection
    rw [if_neg (by omega)]

/-- C8 witness: a concrete state with one instance at 0 connections stays
non-negative under a sequence where releases outnumber acquisitions. -/
theorem c8_witness : connNonneg lbOne ∧ connNonneg (applyOps lbOne opsC8) := by
  have hinv : connNonneg lbOne := by
    intro name l h inst hm
    by_cases hn : name = "svc"
    · subst hn
      simp only [lbOne, if_pos rfl] at h
      cases h
      rw [List.mem_singleton.mp hm]
      decide
    · simp only [lbOne, if_neg hn] at h
      cases h
  exact ⟨hinv, (c8_connection_accounting lbOne hinv).2.2.2 opsC8⟩

/-- C5: `GetInstance` fails with "no available instances" exactly when the
bucket is absent or empty, fails with "no healthy instances" exactly when
the bucket is non-empty but wholly unhealthy, and any instance it returns
is a healthy member of that service's bucket (with its connection count
incremented) — never an unhealthy one, never one from another bucket; when
a healthy instance exists a selection is in fact returned (given
round-robin's counter non-negative and the healthy weight sum
non-negative, as in every reachable state — `rand.Intn` would panic
otherwise rather than return anything). -/
theorem c5_getInstance_characterization (lb : LoadBalancer) (name : String) (r : Nat)
    (hcnt : lb.strategy = "round_robin" → 0 ≤ lb.counters name)
    (hw : ∀ l, lb.services name = some l → lb.strategy = "weighted" →
        0 ≤ sumWeights (healthyEnum l)) :
    (getInstance lb name r = some (.error "no available instances") ↔
      lb.services name = none ∨ lb.services name = some [])
    ∧ (getInstance lb name r = some (.error "no healthy instances") ↔
      ∃ l, lb.services name = some l ∧ l ≠ [] ∧ ∀ x ∈ l, x.healthy = false)
    ∧ (∀ lb' i inst, getInstance lb name r = some (.ok (lb', i, inst)) →
        inst.healthy = true ∧
        ∃ l old, lb.services name = some l ∧ old ∈ l ∧ old.healthy = true ∧
          inst = { old with connections := old.connections + 1 })
    ∧ (∀ l inst0, lb.services name = some l → inst0 ∈ l → inst0.healthy = true →
        ∃ lb' i inst, getInstance lb name r = some (.ok (lb', i, inst))) := by
  refine ⟨?_, ?_, ?_, ?_⟩
  · cases hsvc : lb.services name with
    | none =>
      rw [getInstance_none r hsvc]
      exact ⟨fun _ => Or.inl rfl, fun _ => rfl⟩
    | some l =>
      by_cases hl0 : l = []
      · subst hl0
        rw [getInstance_nil r hsvc]
        exact ⟨fun _ => Or.inr rfl, fun _ => rfl⟩
      · rw [getInstance_eq r hsvc hl0]
        constructor
        · intro hcontra
          by_cases hh : (healthyEnum l).length = 0
          · rw [if_pos hh] at hcontra
            exact absurd (Except.error.inj (Option.some.inj hcontra)) (by decide)
          · rw [if_neg hh] at hcontra
            rcases hsel : selectInstance lb.strategy lb.counters name (healthyEnum l) r with
              _ | ⟨⟨i0, io⟩, cnts⟩ <;> rw [hsel] at hcontra <;> simp at hcontra
        · rintro (hcontra | hcontra)
          · simp at hcontra
          · exact absurd (Option.some.inj hcontra) hl0
  · cases hsvc : lb.services name with
    | none =>
      rw [getInstance_none r hsvc]
      constructor
      · intro hcontra
        exact absurd (Except.error.inj (Option.some.inj hcontra)) (by decide)
      · rintro ⟨l, hl, -, -⟩
        cases hl
    | some l =>
      by_cases hl0 : l = []
      · subst hl0
        rw [getInstance_nil r hsvc]
        constructor
        · intro hcontra
          exact absurd (Except.error.inj (Option.some.inj hcontra)) (by decide)
        · rintro ⟨l', hl', hne, -⟩
          cases hl'
          exact absurd rfl hne
      · rw [getInstance_eq r hsvc hl0]
        by_cases hh : (healthyEnum l).length = 0
        · rw [if_pos hh]
          constructor
          · intro _
            exact ⟨l, rfl, hl0,
              healthyEnumFrom_eq_nil.mp (List.length_eq_zero.mp hh)⟩
          · intro _; rfl
        · rw [if_neg hh]
          constructor
          · intro hcontra
            rcases hsel : selectInstance lb.strategy lb.counters name (healthyEnum l) r with
              _ | ⟨⟨i0, io⟩, cnts⟩ <;> rw [hsel] at hcontra <;> simp at hcontra
          · rintro ⟨l', hl', -, hall⟩
            cases hl'
            have he : healthyEnum l = [] := healthyEnumFrom_eq_nil.mpr hall
            rw [he] at hh
            exact absurd rfl hh
  · intro lb' i inst h
    obtain ⟨l, old, hsvc, hget, hh, hinst, -, -, -, -⟩ := getInstance_ok_spec h
    refine ⟨by rw [hinst]; exact hh, l, old, hsvc, List.get?_mem hget, hh, hinst⟩
  · intro l inst0 hsvc hmem hhealthy
    have hl0 : l ≠ [] := by
      intro he; subst he; cases hmem
    have hhne : healthyEnum l ≠ [] := by
      intro he
      have := healthyEnumFrom_eq_nil.mp he _ hmem
      rw [hhealthy] at this
      cases this
    have hhpos : 0 < (healthyEnum l).length :=
      Nat.pos_of_ne_zero (fun hz => hhne (List.length_eq_zero.mp hz))
    have hsome : (selectInstance lb.strategy lb.counters name (healthyEnum l) r).isSome :=
      selectInstance_isSome hhpos hcnt (fun hws => hw l hsvc hws)
    rcases hsel : selectInstance lb.strategy lb.counters name (healthyEnum l) r with
      _ | ⟨⟨i0, io⟩, cnts⟩
    · rw [hsel] at hsome; cases hsome
    · refine ⟨⟨lb.strategy,
        fun s => if s = name then
            some (l.set i0 { io with connections := io.connections + 1 })
          else lb.services s,
        cnts⟩, i0, { io with connections := io.connections + 1 }, ?_⟩
      rw [getInstance_eq r hsvc hl0,
        if_neg (fun hz => hhne (List.length_eq_zero.mp hz)), hsel]

/-- C5 witness: concrete error and success cases. -/
theorem c5_witness :
    getInstance lbOne "unknown" 0 = some (.error "no available instances")
    ∧ (∃ lb' i inst, getInstance lbOne "svc" 0 = some (.ok (lb', i, inst))) := by
  have h := c5_getInstance_characterization lbOne "svc" 0
    (fun _ => by decide)
    (fun l hl _ => by
      have : l = [instOk] := by
        simpa [lbOne] using hl.symm
      subst this
      decide)
  have h2 := c5_getInstance_characterization lbOne "unknown" 0
    (fun _ => by decide)
    (fun l hl => by simp [lbOne] at hl)
  refine ⟨h2.1.mpr (Or.inl (by decide)), ?_⟩
  exact h.2.2.2 [instOk] instOk (by decide) (List.mem_singleton.mpr rfl) (by decide)

/-- C4: under round-robin with a fixed healthy list of `k ≥ 1` instances,
`N` consecutive `GetInstance` calls all succeed, visit the healthy
positions `c, c+1, …` in bucket-index order wrapped modulo `k` (the cursor
advances by exactly one per selection, ending at `(c + N) % k`), and each
healthy instance is visited `⌊N/k⌋` or `⌈N/k⌉` times. -/
theorem c4_round_robin_fairness (lb : LoadBalancer) (name : String)
    (l : List ServiceInstance) (k c N : Nat)
    (hstrat : lb.strategy = "round_robin")
    (hsvc : lb.services name = some l)
    (hk : (healthyEnum l).length = k) (hkpos : 0 < k)
    (hc : lb.counters name = (c : Int)) (hck : c < k) :
    (getInstanceIter name N lb).1 =
      (List.range N).map (fun j => nthHealthyIdx l ((c + j) % k))
    ∧ (getInstanceIter name N lb).2.counters name = (((c + N) % k : Nat) : Int)
    ∧ ∀ p, p < k →
        ((getInstanceIter name N lb).1.count (nthHealthyIdx l p) = N / k
         ∨ (getInstanceIter name N lb).1.count (nthHealthyIdx l p) = (N + k - 1) / k) := by
  obtain ⟨hseq, hcnt⟩ := getInstanceIter_rr N lb l k c hstrat hsvc hk hkpos hc hck
  refine ⟨hseq, hcnt, ?_⟩
  intro p hp
  have hcount : (getInstanceIter name N lb).1.count (nthHealthyIdx l p) =
      (List.range N).countP (fun j => (c + j) % k == p) := by
    rw [hseq, List.count_eq_countP, List.countP_map]
    apply List.countP_congr
    intro j _
    show (nthHealthyIdx l ((c + j) % k) == nthHealthyIdx l p) = true ↔
      ((c + j) % k == p) = true
    simp only [beq_iff_eq]
    constructor
    · intro he
      exact nthHealthyIdx_inj (by rw [hk]; exact Nat.mod_lt _ hkpos)
        (by rw [hk]; exact hp) he
    · intro he
      rw [he]
  rw [hcount]
  exact countP_range_floor_ceil hkpos hp N c

/-- C4 witness: two healthy instances, five calls — visits 0,1,0,1,0 and
the counts are ⌈5/2⌉ = 3 and ⌊5/2⌋ = 2. -/
theorem c4_witness :
    (getInstanceIter "svc" 5 lbRR2).1 = [0, 1, 0, 1, 0]
    ∧ (getInstanceIter "svc" 5 lbRR2).2.counters "svc" = 1
    ∧ ((getInstanceIter "svc" 5 lbRR2).1.count (nthHealthyIdx [instOk, instOk2] 0) = 2
       ∨ (getInstanceIter "svc" 5 lbRR2).1.count (nthHealthyIdx [instOk, instOk2] 0) = 3) := by
  have h := c4_round_robin_fairness lbRR2 "svc" [instOk, instOk2] 2 0 5 rfl
    (by decide) (by decide) (by decide) (by decide) (by decide)
  refine ⟨?_, ?_, ?_⟩
  · rw [h.1]; decide
  · rw [h.2.1]; decide
  · exact h.2.2 0 (by decide)

end Gateway


